import Mathlib

/-!
Verification development for the `bot` repository: an autonomous-agent
driver with a dynamic tool-dispatch layer (`src/rpc.rs`), an agent
stepper (`src/bot.rs`), an append-only conversation log
(`src/working_memory.rs`) and three concrete capabilities
(`src/main.rs`).  The Rust code is shallowly embedded: pure functions
become Lean functions, the `&mut` state of the stepper and of the
termination slot becomes explicit state passing, fallible code returns
`Except String`, and the external collaborators (the model backend, the
subprocess spawner, serde_json's string parser) become explicit inputs.
-/

namespace Bot

/-- JSON values, embedding `serde_json::Value`.  Numbers are modelled as
integers; no floating point appears in any schema or payload this
development reasons about. -/
inductive Json where
  | null : Json
  | boolV (b : Bool) : Json
  | numV (n : Int) : Json
  | strV (s : String) : Json
  | arrV (elems : List Json) : Json
  | objV (fields : List (String × Json)) : Json

/-- Escape one character the way serde_json renders string contents. -/
def escapeChar (c : Char) : String :=
  if c = '"' then "\\\""
  else if c = '\\' then "\\\\"
  else if c = '\n' then "\\n"
  else if c = '\t' then "\\t"
  else if c = '\r' then "\\r"
  else String.singleton c

/-- Escape a whole string for JSON rendering. -/
def escapeString (s : String) : String :=
  String.join (s.toList.map escapeChar)

/-- Render a string as a quoted JSON string literal. -/
def renderString (s : String) : String :=
  "\"" ++ escapeString s ++ "\""

mutual
/-- Embedding of `serde_json::to_string` on a `Value`: compact rendering,
fields in stored order. -/
def Json.render : Json → String
  | .null => "null"
  | .boolV true => "true"
  | .boolV false => "false"
  | .numV n => toString n
  | .strV s => renderString s
  | .arrV xs => "[" ++ Json.renderElems xs ++ "]"
  | .objV fs => "\x7b" ++ Json.renderFields fs ++ "\x7d"

/-- Render a comma-separated list of JSON values. -/
def Json.renderElems : List Json → String
  | [] => ""
  | [x] => Json.render x
  | x :: y :: rest => Json.render x ++ "," ++ Json.renderElems (y :: rest)

/-- Render comma-separated JSON object fields. -/
def Json.renderFields : List (String × Json) → String
  | [] => ""
  | [(k, v)] => renderString k ++ ":" ++ Json.render v
  | (k, v) :: f :: rest =>
      renderString k ++ ":" ++ Json.render v ++ "," ++ Json.renderFields (f :: rest)
end

mutual
/-- Embedding of `schemars::schema::Schema`: either a boolean schema or a
schema object. -/
inductive Schema where
  | boolSchema (b : Bool) : Schema
  | objSchema (o : SchemaObject) : Schema

/-- Embedding of `schemars::schema::SchemaObject`, restricted to the parts
the generated schemas of this repository use: `instance_type`
(serialized as "type"), `format`, `subschemas.one_of`, `array.items`
(single schema), `object` (the `ObjectValidation`), and `reference`
("$ref").  Metadata (titles) and the unused validation families are not
modelled. -/
inductive SchemaObject where
  | mk (instanceType : Option String) (format : Option String)
       (reference : Option String) (oneOf : SchemaList)
       (items : OptSchema) (objectV : OptObjectValidation) : SchemaObject

/-- An optional schema (used for `array.items` and
`object.additional_properties`). -/
inductive OptSchema where
  | none : OptSchema
  | some (s : Schema) : OptSchema

/-- Presence or absence of the `ObjectValidation` part of a schema object
(`SchemaObject.object : Option<Box<ObjectValidation>>`). -/
inductive OptObjectValidation where
  | none : OptObjectValidation
  | some (v : ObjectValidation) : OptObjectValidation

/-- Embedding of `schemars::schema::ObjectValidation`: `required` (a
sorted set of field names), `properties` (a name-sorted map) and
`additional_properties`. -/
inductive ObjectValidation where
  | mk (required : List String) (properties : PropList)
       (additionalProperties : OptSchema) : ObjectValidation

/-- A list of schemas (for `one_of`). -/
inductive SchemaList where
  | nil : SchemaList
  | cons (head : Schema) (tail : SchemaList) : SchemaList

/-- A name-to-schema map (for `properties` and root `definitions`). -/
inductive PropList where
  | nil : PropList
  | cons (key : String) (value : Schema) (tail : PropList) : PropList
end

/-- Embedding of `schemars::schema::RootSchema`: the `$schema` URI, the
root schema object, and the definitions map. -/
structure RootSchema where
  metaSchema : Option String
  schema : SchemaObject
  definitions : PropList

mutual
/-- The `RemoveFormat` visitor of `schema_for` (src/rpc.rs:116-139): clear
the `format` annotation on every schema object, recursively. -/
def Schema.removeFormat : Schema → Schema
  | .boolSchema b => .boolSchema b
  | .objSchema o => .objSchema (SchemaObject.removeFormat o)

/-- RemoveFormat on a schema object: drop `format` here, recurse into
every subschema position the default visitor walks. -/
def SchemaObject.removeFormat : SchemaObject → SchemaObject
  | .mk it _fmt ref oneOf items objV =>
      .mk it Option.none ref (SchemaList.removeFormat oneOf)
        (OptSchema.removeFormat items) (OptObjectValidation.removeFormat objV)

/-- RemoveFormat on an optional schema. -/
def OptSchema.removeFormat : OptSchema → OptSchema
  | .none => .none
  | .some s => .some (Schema.removeFormat s)

/-- RemoveFormat on an optional object validation. -/
def OptObjectValidation.removeFormat : OptObjectValidation → OptObjectValidation
  | .none => .none
  | .some v => .some (ObjectValidation.removeFormat v)

/-- RemoveFormat on an object validation: recurse into properties and
additional properties. -/
def ObjectValidation.removeFormat : ObjectValidation → ObjectValidation
  | .mk req props addProps =>
      .mk req (PropList.removeFormat props) (OptSchema.removeFormat addProps)

/-- RemoveFormat on a schema list. -/
def SchemaList.removeFormat : SchemaList → SchemaList
  | .nil => .nil
  | .cons s rest => .cons (Schema.removeFormat s) (SchemaList.removeFormat rest)

/-- RemoveFormat on a property map. -/
def PropList.removeFormat : PropList → PropList
  | .nil => .nil
  | .cons k s rest => .cons k (Schema.removeFormat s) (PropList.removeFormat rest)
end

mutual
/-- The `AdditionalPropertiesFalse` visitor of `schema_for`
(src/rpc.rs:142-168): wherever an object validation is present, set its
`additional_properties` to the `false` boolean schema (the visitor
overwrites before recursing, so the old value is discarded), recursing
over the whole tree. -/
def Schema.apFalse : Schema → Schema
  | .boolSchema b => .boolSchema b
  | .objSchema o => .objSchema (SchemaObject.apFalse o)

/-- AdditionalPropertiesFalse on a schema object. -/
def SchemaObject.apFalse : SchemaObject → SchemaObject
  | .mk it fmt ref oneOf items objV =>
      .mk it fmt ref (SchemaList.apFalse oneOf)
        (OptSchema.apFalse items) (OptObjectValidation.apFalse objV)

/-- AdditionalPropertiesFalse on an optional schema. -/
def OptSchema.apFalse : OptSchema → OptSchema
  | .none => .none
  | .some s => .some (Schema.apFalse s)

/-- AdditionalPropertiesFalse on an optional object validation. -/
def OptObjectValidation.apFalse : OptObjectValidation → OptObjectValidation
  | .none => .none
  | .some v => .some (ObjectValidation.apFalse v)

/-- AdditionalPropertiesFalse on an object validation: the
`additional_properties` slot becomes `Schema::Bool(false)` and the
properties are rewritten recursively. -/
def ObjectValidation.apFalse : ObjectValidation → ObjectValidation
  | .mk req props _addProps =>
      .mk req (PropList.apFalse props) (OptSchema.some (.boolSchema false))

/-- AdditionalPropertiesFalse on a schema list. -/
def SchemaList.apFalse : SchemaList → SchemaList
  | .nil => .nil
  | .cons s rest => .cons (Schema.apFalse s) (SchemaList.apFalse rest)

/-- AdditionalPropertiesFalse on a property map. -/
def PropList.apFalse : PropList → PropList
  | .nil => .nil
  | .cons k s rest => .cons k (Schema.apFalse s) (PropList.apFalse rest)
end

/-- RemoveFormat applied to a whole root schema: `visit_root_schema`
visits the root schema object and every definition. -/
def RootSchema.removeFormat (r : RootSchema) : RootSchema :=
  ⟨r.metaSchema, SchemaObject.removeFormat r.schema, PropList.removeFormat r.definitions⟩

/-- AdditionalPropertiesFalse applied to a whole root schema. -/
def RootSchema.apFalse (r : RootSchema) : RootSchema :=
  ⟨r.metaSchema, SchemaObject.apFalse r.schema, PropList.apFalse r.definitions⟩

/-- Embedding of `schema_for::<T>()` (src/rpc.rs:111-175).  Schema
generation itself is done by the schemars library; its raw result is
this function's argument.  The two visitors registered on the generator
are run in order: `RemoveFormat` first, then
`AdditionalPropertiesFalse`. -/
def schema_for (raw : RootSchema) : RootSchema :=
  RootSchema.apFalse (RootSchema.removeFormat raw)

/-- Helper for serde-style serialization: emit a field only when the
option is populated. -/
def optField (k : String) : Option Json → List (String × Json)
  | Option.none => []
  | Option.some j => [(k, j)]

mutual
/-- Serialize an embedded schema to a JSON value, following serde's
serialization of `schemars::schema::Schema` (absent options and empty
collections are skipped; keys follow the struct declaration order). -/
def Schema.toJson : Schema → Json
  | .boolSchema b => .boolV b
  | .objSchema o => SchemaObject.toJson o

/-- Serialize a schema object. -/
def SchemaObject.toJson : SchemaObject → Json
  | .mk it fmt ref oneOf items objV =>
      .objV (optField "type" (it.map Json.strV)
        ++ optField "format" (fmt.map Json.strV)
        ++ (match oneOf with
            | .nil => []
            | _ => [("oneOf", Json.arrV (SchemaList.toJsonList oneOf))])
        ++ (match items with
            | .none => []
            | .some s => [("items", Schema.toJson s)])
        ++ (match objV with
            | .none => []
            | .some v => ObjectValidation.toFields v)
        ++ optField "$ref" (ref.map Json.strV))

/-- Serialize a schema list to a list of JSON values. -/
def SchemaList.toJsonList : SchemaList → List Json
  | .nil => []
  | .cons s rest => Schema.toJson s :: SchemaList.toJsonList rest

/-- Serialize an object validation to its JSON fields. -/
def ObjectValidation.toFields : ObjectValidation → List (String × Json)
  | .mk req props addProps =>
      (if req.isEmpty then []
       else [("required", Json.arrV (req.map Json.strV))])
      ++ (match props with
          | .nil => []
          | _ => [("properties", Json.objV (PropList.toJsonFields props))])
      ++ (match addProps with
          | .none => []
          | .some s => [("additionalProperties", Schema.toJson s)])

/-- Serialize a property map to JSON object fields. -/
def PropList.toJsonFields : PropList → List (String × Json)
  | .nil => []
  | .cons k s rest => (k, Schema.toJson s) :: PropList.toJsonFields rest
end

/-- Serialize a root schema to a JSON value (`$schema`, then the
flattened root schema object's fields, then `definitions`). -/
def RootSchema.toJson (r : RootSchema) : Json :=
  .objV (optField "$schema" (r.metaSchema.map Json.strV)
    ++ (match SchemaObject.toJson r.schema with
        | .objV fs => fs
        | j => [("schema", j)])
    ++ (match r.definitions with
        | .nil => []
        | _ => [("definitions", Json.objV (PropList.toJsonFields r.definitions))]))

mutual
/-- True when no schema object anywhere in the tree carries a `format`
annotation. -/
def Schema.formatFree : Schema → Bool
  | .boolSchema _ => true
  | .objSchema o => SchemaObject.formatFree o

/-- formatFree on a schema object. -/
def SchemaObject.formatFree : SchemaObject → Bool
  | .mk _it fmt _ref oneOf items objV =>
      fmt.isNone && SchemaList.formatFree oneOf && OptSchema.formatFree items
        && OptObjectValidation.formatFree objV

/-- formatFree on an optional schema. -/
def OptSchema.formatFree : OptSchema → Bool
  | .none => true
  | .some s => Schema.formatFree s

/-- formatFree on an optional object validation. -/
def OptObjectValidation.formatFree : OptObjectValidation → Bool
  | .none => true
  | .some v => ObjectValidation.formatFree v

/-- formatFree on an object validation. -/
def ObjectValidation.formatFree : ObjectValidation → Bool
  | .mk _req props addProps =>
      PropList.formatFree props && OptSchema.formatFree addProps

/-- formatFree on a schema list. -/
def SchemaList.formatFree : SchemaList → Bool
  | .nil => true
  | .cons s rest => Schema.formatFree s && SchemaList.formatFree rest

/-- formatFree on a property map. -/
def PropList.formatFree : PropList → Bool
  | .nil => true
  | .cons _ s rest => Schema.formatFree s && PropList.formatFree rest
end

mutual
/-- True when every object-typed node of the tree (a schema object whose
`type` is "object") declares `additionalProperties = false`. -/
def Schema.objectNodesClosed : Schema → Bool
  | .boolSchema _ => true
  | .objSchema o => SchemaObject.objectNodesClosed o

/-- objectNodesClosed on a schema object: the local check plus
recursion. -/
def SchemaObject.objectNodesClosed : SchemaObject → Bool
  | .mk it _fmt _ref oneOf items objV =>
      (if it = Option.some "object" then
        (match objV with
         | .some (.mk _ _ (.some (.boolSchema false))) => true
         | _ => false)
       else true)
      && SchemaList.objectNodesClosed oneOf && OptSchema.objectNodesClosed items
      && OptObjectValidation.objectNodesClosed objV

/-- objectNodesClosed on an optional schema. -/
def OptSchema.objectNodesClosed : OptSchema → Bool
  | .none => true
  | .some s => Schema.objectNodesClosed s

/-- objectNodesClosed on an optional object validation. -/
def OptObjectValidation.objectNodesClosed : OptObjectValidation → Bool
  | .none => true
  | .some v => ObjectValidation.objectNodesClosed v

/-- objectNodesClosed on an object validation. -/
def ObjectValidation.objectNodesClosed : ObjectValidation → Bool
  | .mk _req props addProps =>
      PropList.objectNodesClosed props && OptSchema.objectNodesClosed addProps

/-- objectNodesClosed on a schema list. -/
def SchemaList.objectNodesClosed : SchemaList → Bool
  | .nil => true
  | .cons s rest => Schema.objectNodesClosed s && SchemaList.objectNodesClosed rest

/-- objectNodesClosed on a property map. -/
def PropList.objectNodesClosed : PropList → Bool
  | .nil => true
  | .cons _ s rest => Schema.objectNodesClosed s && PropList.objectNodesClosed rest
end

/-- formatFree over a root schema (root object and definitions). -/
def RootSchema.formatFree (r : RootSchema) : Bool :=
  SchemaObject.formatFree r.schema && PropList.formatFree r.definitions

/-- objectNodesClosed over a root schema. -/
def RootSchema.objectNodesClosed (r : RootSchema) : Bool :=
  SchemaObject.objectNodesClosed r.schema && PropList.objectNodesClosed r.definitions

/-- Embedding of the `Callable` trait (src/rpc.rs:18-24).  `fromJson`
embeds the serde `Deserialize` instance of `Input`, `toJson` the serde
`Serialize` instance of `Output`, `rawInputSchema` the raw
schemars-generated schema of `Input` and `rawOutputSchema` the raw
schema of `Output` (before the sanitizing visitors run).  The async
handler becomes a pure fallible function. -/
structure Callable (I O : Type) where
  name : String
  description : String
  fromJson : Json → Except String I
  toJson : O → Json
  rawInputSchema : RootSchema
  rawOutputSchema : RootSchema
  call : I → Except String O

/-- Embedding of the free function `call` (src/rpc.rs:26-31): decode the
JSON input, run the handler, encode the output; any failure becomes an
`Except.error`. -/
def rpcCall {I O : Type} (c : Callable I O) (input : Json) : Except String Json := do
  let i ← c.fromJson input
  let o ← c.call i
  pure (c.toJson o)

/-- Embedding of `WrappedCallable` (src/rpc.rs:40-44): the type-erased
handler together with the sanitized input schema and the full
description. -/
structure WrappedCallable where
  call : Json → Except String Json
  input_schema : RootSchema
  description : String

/-- Insert into an association list with `HashMap::insert` semantics:
replace the value when the key is present, append otherwise. -/
def insertAssoc {α : Type} (k : String) (v : α) : List (String × α) → List (String × α)
  | [] => [(k, v)]
  | (k', v') :: rest =>
      if k' = k then (k, v) :: rest else (k', v') :: insertAssoc k v rest

/-- Lookup in an association list (`HashMap::get`). -/
def lookupAssoc {α : Type} (l : List (String × α)) (k : String) : Option α :=
  match l with
  | [] => Option.none
  | (k', v) :: rest => if k' = k then Option.some v else lookupAssoc rest k

/-- Embedding of `Callables` (src/rpc.rs:46-49): the registry, a map from
capability name to wrapped callable.  The `HashMap` is modelled as an
association list with unique keys. -/
structure Callables where
  callables : List (String × WrappedCallable)

/-- The `Default` registry: empty. -/
def Callables.empty : Callables := ⟨[]⟩

/-- Embedding of the schemars `JsonSchema` instance for
`Result<T, String>`, as used at src/rpc.rs:55: a `oneOf` of two closed
object variants, `{Ok: <output schema>}` and `{Err: <string>}` (the
output schema is inlined and its definitions are carried over). -/
def resultRootSchema (o : RootSchema) : RootSchema :=
  let strSchema : Schema :=
    .objSchema (.mk (Option.some "string") Option.none Option.none .nil .none .none)
  let okVariant : Schema :=
    .objSchema (.mk (Option.some "object") Option.none Option.none .nil .none
      (.some (.mk ["Ok"] (.cons "Ok" (.objSchema o.schema) .nil) .none)))
  let errVariant : Schema :=
    .objSchema (.mk (Option.some "object") Option.none Option.none .nil .none
      (.some (.mk ["Err"] (.cons "Err" strSchema .nil) .none)))
  ⟨o.metaSchema,
   .mk Option.none Option.none Option.none
     (.cons okVariant (.cons errVariant .nil)) .none .none,
   o.definitions⟩

/-- The description stored at registration (src/rpc.rs:56-60): the
capability's own description, then "returns:" and the sanitized output
schema rendered to JSON text. -/
def mkDescription {I O : Type} (c : Callable I O) : String :=
  c.description ++ "\nreturns:\n"
    ++ Json.render (RootSchema.toJson (schema_for (resultRootSchema c.rawOutputSchema)))

/-- Embedding of `Callables::add` (src/rpc.rs:52-70): derive the
sanitized input schema, build the description with the embedded output
schema text, erase the handler, and insert under the capability's
name. -/
def Callables.add {I O : Type} (cs : Callables) (c : Callable I O) : Callables :=
  ⟨insertAssoc c.name
    ⟨fun input => rpcCall c input, schema_for c.rawInputSchema, mkDescription c⟩
    cs.callables⟩

/-- Embedding of `Callables::call_inner` (src/rpc.rs:72-78): resolve the
name, fail with "Callable not found" when absent, otherwise run the
erased handler. -/
def Callables.call_inner (cs : Callables) (name : String) (input : Json) :
    Except String Json :=
  match lookupAssoc cs.callables name with
  | Option.none => .error "Callable not found"
  | Option.some w => w.call input

/-- Serde's serialization of `Result<Value, String>` to a `Value`
(src/rpc.rs:85): externally tagged, a single-field object keyed "Ok" or
"Err". -/
def resultToJson : Except String Json → Json
  | .ok v => .objV [("Ok", v)]
  | .error e => .objV [("Err", .strV e)]

/-- Embedding of `Callables::call` (src/rpc.rs:80-93): run `call_inner`,
map the error to its display string, and serialize the `Result` into a
JSON value.  This function is total: every outcome is a value.  The
`tracing::info!` side effect is not modelled. -/
def Callables.call (cs : Callables) (name : String) (input : Json) : Json :=
  resultToJson (cs.call_inner name input)

/-- Embedding of `async_openai::types::FunctionObject` as used in
`tools()`. -/
structure FunctionObject where
  name : String
  description : Option String
  parameters : Option Json
  strict : Option Bool

/-- Embedding of `ChatCompletionTool` (its `type` field is always the
constant `Function` and is not modelled). -/
structure ChatCompletionTool where
  function : FunctionObject

/-- Embedding of `Callables::tools` (src/rpc.rs:95-108): one tool per
registry entry carrying the description, the sanitized input schema as
`parameters`, and `strict: true`. -/
def Callables.tools (cs : Callables) : List ChatCompletionTool :=
  cs.callables.map fun p =>
    ⟨⟨p.1, Option.some p.2.description,
      Option.some (RootSchema.toJson p.2.input_schema), Option.some true⟩⟩

/-- Embedding of `FunctionCall` (the deprecated single-function field
carried through `to_request_message`). -/
structure FunctionCall where
  name : String
  arguments : String

/-- Embedding of `ChatCompletionMessageToolCall`.  The raw `arguments`
string of the wire format is represented by the outcome of
`serde_json::from_str` on it (an external parser): `Option.some v` when
the raw string is valid JSON parsing to `v`, `Option.none` when it is
not valid JSON. -/
structure ToolCall where
  id : String
  functionName : String
  arguments : Option Json

/-- Embedding of the assistant request message produced by
`to_request_message` (src/bot.rs:76-97).  Audio is represented by its
id. -/
structure AssistantMessage where
  content : Option String
  name : Option String
  audio : Option String
  tool_calls : Option (List ToolCall)
  function_call : Option FunctionCall
  refusal : Option String

/-- Embedding of `ChatCompletionRequestMessage`, restricted to the four
roles the program constructs. -/
inductive RequestMessage where
  | system (content : String) : RequestMessage
  | user (content : String) : RequestMessage
  | assistant (msg : AssistantMessage) : RequestMessage
  | tool (content : String) (tool_call_id : String) : RequestMessage

/-- Embedding of `WorkingMemory` (src/working_memory.rs:3-7): the ordered
message log. -/
structure WorkingMemory where
  fresh : List RequestMessage

/-- Embedding of `WorkingMemory::messages` (src/working_memory.rs:10-12):
a full copy of the log. -/
def WorkingMemory.messages (wm : WorkingMemory) : List RequestMessage :=
  wm.fresh

/-- Embedding of `WorkingMemory::add_messages`
(src/working_memory.rs:14-17): extend the log with the new messages at
the end (the `tracing::trace!` side effect is not modelled). -/
def WorkingMemory.add_messages (wm : WorkingMemory)
    (new_history : List RequestMessage) : WorkingMemory :=
  ⟨wm.fresh ++ new_history⟩

/-- Embedding of `ChatCompletionResponseMessage`. -/
structure ResponseMessage where
  content : Option String
  refusal : Option String
  tool_calls : Option (List ToolCall)
  function_call : Option FunctionCall
  audio : Option String

/-- One response choice. -/
structure Choice where
  message : ResponseMessage

/-- Embedding of `CreateChatCompletionResponse` (usage is only logged and
is not modelled). -/
structure Response where
  choices : List Choice

/-- Embedding of `to_request_message` (src/bot.rs:76-97): the lossless
conversion from the response message shape to the assistant request
message shape. -/
def to_request_message (m : ResponseMessage) : AssistantMessage :=
  ⟨m.content, Option.none, m.audio, m.tool_calls, m.function_call, m.refusal⟩

/-- The content of the tool-result message for one tool call, when its
arguments parsed: the dispatch result rendered to text
(src/bot.rs:61-62). -/
def toolContent (cs : Callables) (tc : ToolCall) : String :=
  match tc.arguments with
  | Option.some v => Json.render (cs.call tc.functionName v)
  | Option.none => ""

/-- The tool-call loop of `bot_next` (src/bot.rs:59-69): for each call in
order, parse the raw arguments (a parse failure aborts the whole step
via `?`), dispatch, and produce a tool message carrying the same id. -/
def dispatchCalls (cs : Callables) : List ToolCall → Except String (List RequestMessage)
  | [] => .ok []
  | tc :: rest =>
      match tc.arguments with
      | Option.none => .error "invalid JSON in tool call arguments"
      | Option.some v => do
          let output := Json.render (cs.call tc.functionName v)
          let msgs ← dispatchCalls cs rest
          pure (RequestMessage.tool output tc.id :: msgs)

/-- Embedding of `bot_next` (src/bot.rs:14-74).  Request construction and
the network call are the external Model Client collaborator, so the
`response` is an input; a transport failure never reaches this function.
The `&mut WorkingMemory` becomes state passing: the result pairs the
memory after the step with the step's outcome.  `add_messages` is
called only after the whole batch is built, so on any error path the
memory is returned untouched, exactly as in the source.  The two
`tracing::warn!` branches (more than one choice, empty tool-call list)
are side effects and are not modelled. -/
def bot_next (cs : Callables) (response : Response) (history : WorkingMemory) :
    WorkingMemory × Except String Unit :=
  match response.choices.head? with
  | Option.none => (history, .error "No choices in response")
  | Option.some choice =>
      match choice.message.tool_calls with
      | Option.none => (history, .error "No tool calls in response")
      | Option.some tool_calls =>
          let assistantMsg :=
            RequestMessage.assistant (to_request_message choice.message)
          match dispatchCalls cs tool_calls with
          | .error e => (history, .error e)
          | .ok toolMsgs =>
              (history.add_messages (assistantMsg :: toolMsgs), .ok ())

/-- Embedding of `RunArgs` (src/main.rs:83-88). -/
structure RunArgs where
  explanation : String
  command : List String

/-- Embedding of `RunOutput` (src/main.rs:90-94). -/
structure RunOutput where
  stdout : String
  stderr : String

/-- Embedding of `NoteArgs` (src/main.rs:165-185). -/
structure NoteArgs where
  note : String
  what_is_not_working : String
  potential_explanations : String
  potential_resolutions : String
  ideas : String
  note_to_future_self : String
  note_to_other_agents : String
  ships_log : String
  prayer : String

/-- Embedding of `NoteOutput` (src/main.rs:187-190). -/
structure NoteOutput where
  encouragement : String

/-- Embedding of `DoneArgs` (src/main.rs:127-136). -/
structure DoneArgs where
  long_summary : String
  tldr : String
  verified_how : String
  test_commands : List RunArgs

/-- Serde-style decoding of a required string field. -/
def decodeStr (fields : List (String × Json)) (k : String) : Except String String :=
  match lookupAssoc fields k with
  | Option.some (Json.strV s) => .ok s
  | Option.some _ => .error ("invalid type for field " ++ k)
  | Option.none => .error ("missing field " ++ k)

/-- Decode one JSON value as a string. -/
def decodeStrElem : Json → Except String String
  | .strV s => .ok s
  | _ => .error "invalid type: expected a string"

/-- Serde-style decoding of a required `Vec<String>` field. -/
def decodeStrList (fields : List (String × Json)) (k : String) :
    Except String (List String) :=
  match lookupAssoc fields k with
  | Option.some (Json.arrV xs) => xs.mapM decodeStrElem
  | Option.some _ => .error ("invalid type for field " ++ k)
  | Option.none => .error ("missing field " ++ k)

/-- The derived `Deserialize` for `RunArgs`. -/
def RunArgs.fromJson : Json → Except String RunArgs
  | .objV fields => do
      let explanation ← decodeStr fields "explanation"
      let command ← decodeStrList fields "command"
      pure ⟨explanation, command⟩
  | _ => .error "invalid type: expected struct RunArgs"

/-- The derived `Deserialize` for `NoteArgs`. -/
def NoteArgs.fromJson : Json → Except String NoteArgs
  | .objV fields => do
      let note ← decodeStr fields "note"
      let what_is_not_working ← decodeStr fields "what_is_not_working"
      let potential_explanations ← decodeStr fields "potential_explanations"
      let potential_resolutions ← decodeStr fields "potential_resolutions"
      let ideas ← decodeStr fields "ideas"
      let note_to_future_self ← decodeStr fields "note_to_future_self"
      let note_to_other_agents ← decodeStr fields "note_to_other_agents"
      let ships_log ← decodeStr fields "ships_log"
      let prayer ← decodeStr fields "prayer"
      pure ⟨note, what_is_not_working, potential_explanations, potential_resolutions,
        ideas, note_to_future_self, note_to_other_agents, ships_log, prayer⟩
  | _ => .error "invalid type: expected struct NoteArgs"

/-- Serde-style decoding of a required `Vec<RunArgs>` field. -/
def decodeRunArgsList (fields : List (String × Json)) (k : String) :
    Except String (List RunArgs) :=
  match lookupAssoc fields k with
  | Option.some (Json.arrV xs) => xs.mapM RunArgs.fromJson
  | Option.some _ => .error ("invalid type for field " ++ k)
  | Option.none => .error ("missing field " ++ k)

/-- The derived `Deserialize` for `DoneArgs`. -/
def DoneArgs.fromJson : Json → Except String DoneArgs
  | .objV fields => do
      let long_summary ← decodeStr fields "long_summary"
      let tldr ← decodeStr fields "tldr"
      let verified_how ← decodeStr fields "verified_how"
      let test_commands ← decodeRunArgsList fields "test_commands"
      pure ⟨long_summary, tldr, verified_how, test_commands⟩
  | _ => .error "invalid type: expected struct DoneArgs"

/-- The derived `Serialize` for `RunOutput` (fields in declaration
order). -/
def RunOutput.toJson (r : RunOutput) : Json :=
  .objV [("stdout", .strV r.stdout), ("stderr", .strV r.stderr)]

/-- The derived `Serialize` for `NoteOutput`. -/
def NoteOutput.toJson (n : NoteOutput) : Json :=
  .objV [("encouragement", .strV n.encouragement)]

/-- The Rust `{:?}` rendering of a `RunOutput`, as used in the error of
`Run::call` (src/main.rs:118). -/
def RunOutput.debugFormat (r : RunOutput) : String :=
  "RunOutput \x7b stdout: " ++ reprStr r.stdout ++ ", stderr: "
    ++ reprStr r.stderr ++ " \x7d"

/-- The external subprocess collaborator: given a program name and its
arguments, either an io error or the captured output together with the
success bit of the exit status. -/
abbrev SpawnOracle : Type := String → List String → Except String (RunOutput × Bool)

/-- Embedding of `Run::call` (src/main.rs:110-121): an empty command
list is an error; otherwise spawn, and a non-success exit status turns
the captured output into an error via its debug rendering. -/
def Run.call (spawn : SpawnOracle) (inp : RunArgs) : Except String RunOutput :=
  match inp.command with
  | [] => .error "empty command"
  | first :: rest =>
      match spawn first rest with
      | .error e => .error e
      | .ok (out, success) =>
          if success then .ok out else .error (RunOutput.debugFormat out)

/-- The test loop inside `Done::call` (src/main.rs:154-156): run each
test command in order through `Run::call`, aborting on the first
failure. -/
def runTests (spawn : SpawnOracle) : List RunArgs → Except String Unit
  | [] => .ok ()
  | t :: rest => do
      let _ ← Run.call spawn t
      runTests spawn rest

/-- Embedding of `Done::call` (src/main.rs:153-159).  The
`Arc<Mutex<Option<DoneArgs>>>` termination slot becomes explicit state:
the result pairs the handler's outcome with the slot after the call.
The slot is replaced only after every test command has succeeded; an
early `?` return leaves it untouched. -/
def Done.call (spawn : SpawnOracle) (slot : Option DoneArgs) (inp : DoneArgs) :
    Except String Unit × Option DoneArgs :=
  match runTests spawn inp.test_commands with
  | .error e => (.error e, slot)
  | .ok _ => (.ok (), Option.some inp)

/-- The Driver's check after each step (src/main.rs:65-70): the loop
breaks exactly when the termination slot is populated. -/
def driverObservesHalt (slot : Option DoneArgs) : Bool :=
  slot.isSome

/-- A string-typed schema node. -/
def strSchema : Schema :=
  .objSchema (.mk (Option.some "string") Option.none Option.none .nil .none .none)

/-- An array-typed schema node with a single `items` schema. -/
def arraySchemaOf (s : Schema) : Schema :=
  .objSchema (.mk (Option.some "array") Option.none Option.none .nil (.some s) .none)

/-- A `$ref` schema node. -/
def refSchemaTo (r : String) : Schema :=
  .objSchema (.mk Option.none Option.none (Option.some r) .nil .none .none)

/-- An object-typed schema node with required fields and properties;
`additional_properties` is initially absent, as schemars generates for
a plain derived struct. -/
def objectSchemaOf (req : List String) (props : PropList) : SchemaObject :=
  .mk (Option.some "object") Option.none Option.none .nil .none
    (.some (.mk req props .none))

/-- The draft-07 meta schema URI of schemars' default settings. -/
def draft7 : Option String :=
  Option.some "http://json-schema.org/draft-07/schema#"

/-- The schema object schemars derives for `RunArgs` (properties and
required sets are name-sorted `BTreeMap`/`BTreeSet`s). -/
def runArgsSchemaObject : SchemaObject :=
  objectSchemaOf ["command", "explanation"]
    (.cons "command" (arraySchemaOf strSchema) (.cons "explanation" strSchema .nil))

/-- The raw root schema schemars generates for `RunArgs`. -/
def rawRunArgsSchema : RootSchema :=
  ⟨draft7, runArgsSchemaObject, .nil⟩

/-- The raw root schema schemars generates for `NoteArgs`. -/
def rawNoteArgsSchema : RootSchema :=
  ⟨draft7,
   objectSchemaOf
     ["ideas", "note", "note_to_future_self", "note_to_other_agents",
      "potential_explanations", "potential_resolutions", "prayer",
      "ships_log", "what_is_not_working"]
     (.cons "ideas" strSchema (.cons "note" strSchema
       (.cons "note_to_future_self" strSchema (.cons "note_to_other_agents" strSchema
         (.cons "potential_explanations" strSchema
           (.cons "potential_resolutions" strSchema (.cons "prayer" strSchema
             (.cons "ships_log" strSchema
               (.cons "what_is_not_working" strSchema .nil))))))))),
   .nil⟩

/-- The raw root schema schemars generates for `DoneArgs`: the nested
`Vec<RunArgs>` refers to a `RunArgs` definition. -/
def rawDoneArgsSchema : RootSchema :=
  ⟨draft7,
   objectSchemaOf ["long_summary", "test_commands", "tldr", "verified_how"]
     (.cons "long_summary" strSchema
       (.cons "test_commands" (arraySchemaOf (refSchemaTo "#/definitions/RunArgs"))
         (.cons "tldr" strSchema (.cons "verified_how" strSchema .nil)))),
   .cons "RunArgs" (.objSchema runArgsSchemaObject) .nil⟩

/-- The raw root schema schemars generates for `RunOutput`. -/
def rawRunOutputSchema : RootSchema :=
  ⟨draft7,
   objectSchemaOf ["stderr", "stdout"]
     (.cons "stderr" strSchema (.cons "stdout" strSchema .nil)),
   .nil⟩

/-- The raw root schema schemars generates for `NoteOutput`. -/
def rawNoteOutputSchema : RootSchema :=
  ⟨draft7,
   objectSchemaOf ["encouragement"] (.cons "encouragement" strSchema .nil),
   .nil⟩

/-- The raw root schema schemars generates for `()` (`Done`'s output
type). -/
def rawUnitSchema : RootSchema :=
  ⟨draft7, .mk (Option.some "null") Option.none Option.none .nil .none .none, .nil⟩

/-- The description of the `run` capability (src/main.rs:102-109; the
Rust raw string keeps its backslash-quote sequences verbatim). -/
def runDescription : String :=
  "\nRun a command in your VM.\nEg: \x7b\\\"explanation\\\": \\\"Checking to see which users have home directories on this machine. (note, this won\x27t include root)\\\", \\\"command\\\": [\\\"ls\\\", \\\"/home\\\"]\x7d\nNote: this command is *not* run in a shell; shell features like pipes, redirection, and globbing will not work unless you explicitly call a shell.\nIt\x27s recommended that \"explanation\" come before \"command\" to give you, the agent, opportunity to think-out-loud.\n"

/-- The description of the `note` capability (src/main.rs:198-203). -/
def noteDescription : String :=
  "\nLog the current state of the task. Use this to think out loud, log your thoughts, and keep track of your progress.\n"

/-- The description of the `done` capability (src/main.rs:147-152). -/
def doneDescription : String :=
  "\nReport completion of the task. Verify that the task is complete before calling this function. \x27verified_how\x27 should contain the method by which completion was verified.\nIn addition, add a list of test commands to be run before exiting. \n"

/-- The `Run` capability (src/main.rs:96-122), parameterized by the
subprocess collaborator. -/
def runCallable (spawn : SpawnOracle) : Callable RunArgs RunOutput :=
  ⟨"run", runDescription, RunArgs.fromJson, RunOutput.toJson,
   rawRunArgsSchema, rawRunOutputSchema, Run.call spawn⟩

/-- The `Note` capability (src/main.rs:192-208): always succeeds with a
fixed encouragement. -/
def noteCallable : Callable NoteArgs NoteOutput :=
  ⟨"note", noteDescription, NoteArgs.fromJson, NoteOutput.toJson,
   rawNoteArgsSchema, rawNoteOutputSchema,
   fun _ => .ok ⟨"You got this!"⟩⟩

/-- The `done` capability as registered (src/main.rs:141-160): its
fallible part runs the test commands; the write into the termination
slot is the side effect modelled separately by `Done.call`.  The unit
output serializes to `null`. -/
def doneCallable (spawn : SpawnOracle) : Callable DoneArgs Unit :=
  ⟨"done", doneDescription, DoneArgs.fromJson, fun _ => Json.null,
   rawDoneArgsSchema, rawUnitSchema,
   fun inp => runTests spawn inp.test_commands⟩

/-- The registry built in `main` (src/main.rs:56-61): `run`, `note`,
then `done`. -/
def mainCallables (spawn : SpawnOracle) : Callables :=
  ((Callables.empty.add (runCallable spawn)).add noteCallable).add
    (doneCallable spawn)

/-- A registry holding only the `note` capability, used as a concrete
test fixture. -/
def csNote : Callables := Callables.empty.add noteCallable

/-- A tool call whose raw argument string is valid JSON (`"{}"`) but does
not satisfy `NoteArgs`' input contract. -/
def tcBadShape : ToolCall := ⟨"id1", "note", Option.some (Json.objV [])⟩

/-- A tool call naming an unregistered capability, with well-formed
arguments. -/
def tcUnknownName : ToolCall := ⟨"id2", "missing", Option.some Json.null⟩

/-- A response choice carrying the two fixture tool calls above. -/
def c2choice : Choice :=
  ⟨⟨Option.none, Option.none, Option.some [tcBadShape, tcUnknownName],
    Option.none, Option.none⟩⟩

/-- A response choice with a present-but-empty tool-call list. -/
def emptyCallsChoice : Choice :=
  ⟨⟨Option.none, Option.none, Option.some [], Option.none, Option.none⟩⟩

/-- A response choice with no tool-call field at all. -/
def noCallsChoice : Choice :=
  ⟨⟨Option.none, Option.none, Option.none, Option.none, Option.none⟩⟩

/-- A response choice carrying two well-formed tool calls "a" then
"b". -/
def c4choice : Choice :=
  ⟨⟨Option.none, Option.none,
    Option.some [⟨"a", "x", Option.some Json.null⟩, ⟨"b", "y", Option.some Json.null⟩],
    Option.none, Option.none⟩⟩

/-- A trivial capability named "dup", first registration fixture. -/
def dupCallableA : Callable Unit Unit :=
  ⟨"dup", "first", fun _ => .ok (), fun _ => Json.null,
   rawUnitSchema, rawUnitSchema, fun _ => .ok ()⟩

/-- A second, different capability under the same name "dup". -/
def dupCallableB : Callable Unit Unit :=
  ⟨"dup", "second", fun _ => .error "handler b", fun _ => Json.null,
   rawUnitSchema, rawUnitSchema, fun _ => .ok ()⟩

end Bot

namespace Bot

/-- Binding a failed `Except` computation short-circuits. -/
theorem except_bind_error {ε α β : Type} (e : ε) (f : α → Except ε β) :
    (Except.error e >>= f) = Except.error e := rfl

/-- Binding a successful `Except` computation applies the
continuation. -/
theorem except_bind_ok {ε α β : Type} (a : α) (f : α → Except ε β) :
    (Except.ok a >>= f) = f a := rfl

/-- Mapping over a failed `Except` computation short-circuits. -/
theorem except_map_error {ε α β : Type} (e : ε) (f : α → β) :
    (f <$> (Except.error e : Except ε α)) = Except.error e := rfl

/-- Mapping over a successful `Except` computation applies the
function. -/
theorem except_map_ok {ε α β : Type} (a : α) (f : α → β) :
    (f <$> (Except.ok a : Except ε α)) = Except.ok (f a) := rfl

/-- Looking up the key just inserted finds the new value. -/
theorem lookupAssoc_insertAssoc_self {α : Type} (k : String) (v : α)
    (l : List (String × α)) :
    lookupAssoc (insertAssoc k v l) k = Option.some v := by
  induction l with
  | nil => simp [insertAssoc, lookupAssoc]
  | cons p rest ih =>
      obtain ⟨k', v'⟩ := p
      by_cases h : k' = k
      · simp [insertAssoc, h, lookupAssoc]
      · simp [insertAssoc, h, lookupAssoc, ih]

/-- The inserted pair is a member of the updated association list. -/
theorem pair_mem_insertAssoc {α : Type} (k : String) (v : α)
    (l : List (String × α)) :
    (k, v) ∈ insertAssoc k v l := by
  induction l with
  | nil => simp [insertAssoc]
  | cons p rest ih =>
      obtain ⟨k', v'⟩ := p
      by_cases h : k' = k
      · simp [insertAssoc, h]
      · simp [insertAssoc, h]
        right
        exact ih

/-- The inserted key is among the keys of the updated association
list. -/
theorem mem_map_fst_insertAssoc {α : Type} (k : String) (v : α)
    (l : List (String × α)) :
    k ∈ (insertAssoc k v l).map Prod.fst := by
  exact List.mem_map.mpr ⟨(k, v), pair_mem_insertAssoc k v l, rfl⟩

/-- Inserting under a key that is already present leaves the key list
unchanged. -/
theorem map_fst_insertAssoc_of_mem {α : Type} (k : String) (v : α)
    (l : List (String × α)) (h : k ∈ l.map Prod.fst) :
    (insertAssoc k v l).map Prod.fst = l.map Prod.fst := by
  induction l with
  | nil => simp at h
  | cons p rest ih =>
      obtain ⟨k', v'⟩ := p
      by_cases hk : k' = k
      · simp [insertAssoc, hk]
      · simp [insertAssoc, hk]
        apply ih
        have h' : k ∈ k' :: rest.map Prod.fst := by simpa using h
        rcases List.mem_cons.mp h' with h1 | h2
        · exact absurd h1.symm hk
        · exact h2

/-- `call_inner` on a just-registered capability runs its erased
handler. -/
theorem call_inner_add_self {I O : Type} (cs : Callables) (c : Callable I O)
    (input : Json) :
    (cs.add c).call_inner c.name input = rpcCall c input := by
  simp [Callables.add, Callables.call_inner, lookupAssoc_insertAssoc_self]

/-- When decoding fails, the erased handler fails with the decode
error. -/
theorem rpcCall_decode_error {I O : Type} (c : Callable I O) (input : Json)
    (e : String) (h : c.fromJson input = .error e) :
    rpcCall c input = .error e := by
  simp [rpcCall, h, except_bind_error]

/-- When decoding succeeds and the handler fails, the erased handler
fails with the handler error. -/
theorem rpcCall_handler_error {I O : Type} (c : Callable I O) (input : Json)
    (i : I) (e : String) (hi : c.fromJson input = .ok i)
    (he : c.call i = .error e) :
    rpcCall c input = .error e := by
  simp [rpcCall, hi, he, except_bind_ok, except_map_error]

/-- When decoding and the handler both succeed, the erased handler
returns the encoded output. -/
theorem rpcCall_ok {I O : Type} (c : Callable I O) (input : Json)
    (i : I) (o : O) (hi : c.fromJson input = .ok i) (ho : c.call i = .ok o) :
    rpcCall c input = .ok (c.toJson o) := by
  simp [rpcCall, hi, ho, except_bind_ok, except_map_ok]

/-- Characterization of the tool-call loop's success: the produced
batch is one tool message per call, in order, carrying the dispatch
output and the call's id. -/
theorem dispatchCalls_ok_shape (cs : Callables) (tcs : List ToolCall)
    (l : List RequestMessage) (h : dispatchCalls cs tcs = .ok l) :
    l = tcs.map (fun tc => RequestMessage.tool (toolContent cs tc) tc.id) := by
  induction tcs generalizing l with
  | nil =>
      simp [dispatchCalls] at h
      simp [h.symm]
  | cons tc rest ih =>
      match harg : tc.arguments with
      | Option.none => simp [dispatchCalls, harg] at h
      | Option.some v =>
          simp [dispatchCalls, harg] at h
          match hrest : dispatchCalls cs rest with
          | .error e => simp [hrest] at h
          | .ok msgs =>
              simp [hrest] at h
              simp [h.symm, ih msgs hrest, toolContent, harg]

/-- When every call's raw arguments parse, the tool-call loop succeeds
and produces the full batch. -/
theorem dispatchCalls_ok_of_parse (cs : Callables) (tcs : List ToolCall)
    (h : ∀ tc ∈ tcs, tc.arguments.isSome = true) :
    dispatchCalls cs tcs
      = .ok (tcs.map (fun tc => RequestMessage.tool (toolContent cs tc) tc.id)) := by
  induction tcs with
  | nil => simp [dispatchCalls]
  | cons tc rest ih =>
      have htc : tc.arguments.isSome = true := h tc (List.mem_cons_self tc rest)
      match harg : tc.arguments with
      | Option.none => simp [harg] at htc
      | Option.some v =>
          have hrest := ih (fun t ht => h t (List.mem_cons_of_mem tc ht))
          simp [dispatchCalls, harg, hrest, toolContent]

/-- The test loop of `Done::call` succeeds exactly when every test
command succeeds. -/
theorem runTests_ok_iff (spawn : SpawnOracle) (cmds : List RunArgs) :
    runTests spawn cmds = .ok () ↔
      ∀ t ∈ cmds, (Run.call spawn t).isOk = true := by
  induction cmds with
  | nil => simp [runTests]
  | cons t rest ih =>
      constructor
      · intro h u hu
        match hr : Run.call spawn t with
        | .error e => simp [runTests, hr, except_bind_error] at h
        | .ok out =>
            simp [runTests, hr, except_bind_ok] at h
            rcases List.mem_cons.mp hu with rfl | hu'
            · simp [hr, Except.isOk, Except.toBool]
            · exact ih.mp h u hu'
      · intro h
        match hr : Run.call spawn t with
        | .error e =>
            have := h t (List.mem_cons_self t rest)
            simp [hr, Except.isOk, Except.toBool] at this
        | .ok out =>
            simp [runTests, hr, except_bind_ok]
            exact ih.mpr (fun u hu => h u (List.mem_cons_of_mem t hu))

/-- C1: for every capability name and JSON argument value, dispatch
returns a JSON value shaped `{"Ok": value}` on handler success and
`{"Err": message}` when the name is unregistered, when the arguments do
not decode into the capability's input type, or when the handler itself
fails; dispatch is a total function into JSON values and never
propagates an error past this boundary. -/
theorem C1_dispatch_always_returns_value (cs : Callables) (name : String)
    (input : Json) :
    ((∃ v, cs.call name input = Json.objV [("Ok", v)])
      ∨ (∃ m, cs.call name input = Json.objV [("Err", Json.strV m)]))
    ∧ (lookupAssoc cs.callables name = Option.none →
        cs.call name input = Json.objV [("Err", Json.strV "Callable not found")])
    ∧ (∀ (I O : Type) (c : Callable I O), name = c.name →
        (∀ e, c.fromJson input = .error e →
          (cs.add c).call name input = Json.objV [("Err", Json.strV e)])
        ∧ (∀ i e, c.fromJson input = .ok i → c.call i = .error e →
            (cs.add c).call name input = Json.objV [("Err", Json.strV e)])
        ∧ (∀ i o, c.fromJson input = .ok i → c.call i = .ok o →
            (cs.add c).call name input = Json.objV [("Ok", c.toJson o)])) := by
  refine ⟨?_, ?_, ?_⟩
  · match h : cs.call_inner name input with
    | .ok v => exact Or.inl ⟨v, by simp [Callables.call, h, resultToJson]⟩
    | .error m => exact Or.inr ⟨m, by simp [Callables.call, h, resultToJson]⟩
  · intro h
    simp [Callables.call, Callables.call_inner, h, resultToJson]
  · intro I O c hname
    subst hname
    refine ⟨?_, ?_, ?_⟩
    · intro e he
      simp [Callables.call, call_inner_add_self,
        rpcCall_decode_error c input e he, resultToJson]
    · intro i e hi he
      simp [Callables.call, call_inner_add_self,
        rpcCall_handler_error c input i e hi he, resultToJson]
    · intro i o hi ho
      simp [Callables.call, call_inner_add_self,
        rpcCall_ok c input i o hi ho, resultToJson]

/-- Witness for C1: dispatching `null` to the registered `note`
capability fails to decode and yields the `{"Err": ...}` value. -/
theorem C1_witness :
    (Callables.empty.add noteCallable).call "note" Json.null
      = Json.objV [("Err", Json.strV "invalid type: expected struct NoteArgs")] := by
  have h := (C1_dispatch_always_returns_value Callables.empty "note" Json.null).2.2
    NoteArgs NoteOutput noteCallable rfl
  exact h.1 "invalid type: expected struct NoteArgs" rfl

/-- C3: for each of the three registered capabilities (`run`, `note`,
`done`), the input schema derived at registration contains no "format"
key at any node of the tree and every object-typed node declares
`additionalProperties = false`. -/
theorem C3_registered_schemas_sanitized (spawn : SpawnOracle) :
    (mainCallables spawn).callables.map
      (fun p => RootSchema.formatFree p.2.input_schema
        && RootSchema.objectNodesClosed p.2.input_schema)
      = [true, true, true] := by
  rfl

/-- C7: the Working Memory log grows monotonically: `add_messages`
appends the new messages at the end, every previously stored message
stays at its original position, and any sequence of appends only
extends the log. -/
theorem C7_working_memory_monotone (wm : WorkingMemory)
    (new : List RequestMessage) (batches : List (List RequestMessage)) :
    (wm.add_messages new).fresh = wm.fresh ++ new
    ∧ (∀ i, i < wm.fresh.length →
        (wm.add_messages new).fresh[i]? = wm.fresh[i]?)
    ∧ ∃ rest, (batches.foldl WorkingMemory.add_messages wm).fresh
        = wm.fresh ++ rest := by
  refine ⟨rfl, ?_, ?_⟩
  · intro i hi
    simp only [WorkingMemory.add_messages]
    exact List.getElem?_append_left hi
  · induction batches generalizing wm with
    | nil => exact ⟨[], by simp⟩
    | cons b bs ih =>
        obtain ⟨rest, hrest⟩ := ih (wm.add_messages b)
        exact ⟨b ++ rest, by
          simp only [List.foldl_cons]
          rw [hrest]
          simp [WorkingMemory.add_messages, List.append_assoc]⟩

/-- Witness for C7: appending to a one-message log leaves the original
message at position 0. -/
theorem C7_witness :
    ((WorkingMemory.mk [RequestMessage.user "hi"]).add_messages
        [RequestMessage.user "x"]).fresh[0]?
      = (WorkingMemory.mk [RequestMessage.user "hi"]).fresh[0]? := by
  exact (C7_working_memory_monotone ⟨[RequestMessage.user "hi"]⟩
    [RequestMessage.user "x"] []).2.1 0 (by decide)

/-- C9: for every registered capability, the tool definition sent to the
backend carries only the sanitized input schema in its `parameters`
field and has `strict = true`; the output schema is not a parameter: it
is rendered to JSON text and appended to the description, shaped as a
discriminated success-or-string-failure (`Result`) schema. -/
theorem C9_tool_wire_format {I O : Type} (cs : Callables) (c : Callable I O) :
    ∃ t ∈ (cs.add c).tools,
      t.function.name = c.name
      ∧ t.function.strict = Option.some true
      ∧ t.function.parameters
          = Option.some (RootSchema.toJson (schema_for c.rawInputSchema))
      ∧ t.function.description
          = Option.some (c.description ++ "\nreturns:\n"
              ++ Json.render (RootSchema.toJson
                  (schema_for (resultRootSchema c.rawOutputSchema)))) := by
  refine ⟨⟨⟨c.name, Option.some (mkDescription c),
    Option.some (RootSchema.toJson (schema_for c.rawInputSchema)),
    Option.some true⟩⟩, ?_, rfl, rfl, rfl, rfl⟩
  unfold Callables.tools Callables.add
  exact List.mem_map.mpr
    ⟨(c.name, ⟨fun input => rpcCall c input, schema_for c.rawInputSchema,
      mkDescription c⟩), pair_mem_insertAssoc _ _ _, rfl⟩

/-- C10: the `done` handler writes the termination slot only after every
supplied test command has run successfully; if any test command fails,
the handler returns an error, the slot is left unchanged, and (when the
slot was empty) the Driver's loop does not observe a halt and performs
another step. -/
theorem C10_done_gated_by_tests (spawn : SpawnOracle) (slot : Option DoneArgs)
    (inp : DoneArgs) :
    ((∀ t ∈ inp.test_commands, (Run.call spawn t).isOk = true) →
        Done.call spawn slot inp = (.ok (), Option.some inp))
    ∧ (∀ e, runTests spawn inp.test_commands = .error e →
        Done.call spawn slot inp = (.error e, slot))
    ∧ ((∃ t ∈ inp.test_commands, (Run.call spawn t).isOk = false) →
        ∃ e, Done.call spawn slot inp = (.error e, slot))
    ∧ (slot = Option.none →
        (∃ t ∈ inp.test_commands, (Run.call spawn t).isOk = false) →
        driverObservesHalt (Done.call spawn slot inp).2 = false) := by
  have h3 : (∃ t ∈ inp.test_commands, (Run.call spawn t).isOk = false) →
      ∃ e, Done.call spawn slot inp = (.error e, slot) := by
    intro hex
    obtain ⟨t, ht, hfail⟩ := hex
    match hr : runTests spawn inp.test_commands with
    | .ok u =>
        cases u
        have := (runTests_ok_iff spawn inp.test_commands).mp hr t ht
        rw [this] at hfail
        exact absurd hfail (by simp)
    | .error e => exact ⟨e, by simp [Done.call, hr]⟩
  refine ⟨?_, ?_, h3, ?_⟩
  · intro hall
    have hr := (runTests_ok_iff spawn inp.test_commands).mpr hall
    simp [Done.call, hr]
  · intro e he
    simp [Done.call, he]
  · intro hslot hex
    obtain ⟨e, he⟩ := h3 hex
    rw [he, hslot]
    rfl

/-- Witness for C10: one failing test command makes the `done` handler
fail and leaves the empty termination slot empty. -/
theorem C10_witness :
    ∃ e, Done.call (fun _ _ => .ok (⟨"", ""⟩, false)) Option.none
        ⟨"", "", "", [⟨"", ["false"]⟩]⟩ = (.error e, Option.none) := by
  exact (C10_done_gated_by_tests (fun _ _ => .ok (⟨"", ""⟩, false)) Option.none
    ⟨"", "", "", [⟨"", ["false"]⟩]⟩).2.2.1
    ⟨⟨"", ["false"]⟩, List.mem_cons_self _ _, rfl⟩

/-- Counterexample to C2 as stated: a tool call whose raw argument string
is not valid JSON also fails the capability's input contract, yet the
step aborts with an error before any dispatch result is committed: no
`{"Err": ...}` tool-result is produced and the subsequent tool call is
not dispatched (Working Memory stays empty). -/
theorem C2_counterexample :
    bot_next csNote
      ⟨[⟨⟨Option.none, Option.none,
          Option.some [⟨"call_1", "note", Option.none⟩, tcUnknownName],
          Option.none, Option.none⟩⟩]⟩
      ⟨[]⟩
      = (⟨[]⟩, .error "invalid JSON in tool call arguments") := rfl

/-- C2 (amended): for every step in which every tool call's raw argument
string parses as JSON, the step succeeds and every tool call — in
particular one whose parsed arguments do not satisfy the capability's
input contract — is dispatched and produces its own tool-result message
in order; a contract-violating dispatch's content is the rendered
`{"Err": ...}` value.  (A raw argument string that is not valid JSON
instead aborts the whole step.) -/
theorem C2_amended_decode_failure_is_value (cs : Callables) (h : WorkingMemory)
    (choice : Choice) (rest : List Choice) (tcs : List ToolCall)
    (htc : choice.message.tool_calls = Option.some tcs)
    (hparse : ∀ tc ∈ tcs, tc.arguments.isSome = true) :
    bot_next cs ⟨choice :: rest⟩ h
      = (⟨h.fresh ++ (RequestMessage.assistant (to_request_message choice.message)
          :: tcs.map (fun tc => RequestMessage.tool (toolContent cs tc) tc.id))⟩,
         .ok ())
    ∧ (∀ tc ∈ tcs, ∀ v m, tc.arguments = Option.some v →
        cs.call_inner tc.functionName v = .error m →
        toolContent cs tc = Json.render (Json.objV [("Err", Json.strV m)])) := by
  constructor
  · have hd := dispatchCalls_ok_of_parse cs tcs hparse
    simp [bot_next, htc, hd, WorkingMemory.add_messages]
  · intro tc _ v m harg hcall
    simp [toolContent, harg, Callables.call, hcall, resultToJson]

/-- Witness for C2 (amended): a call with wrong-shaped (but valid JSON)
arguments yields an Err tool-result, and the following call to an
unregistered name still produces its own tool-result message. -/
theorem C2_witness :
    bot_next csNote ⟨[c2choice]⟩ ⟨[]⟩
      = (⟨[RequestMessage.assistant (to_request_message c2choice.message),
          RequestMessage.tool (toolContent csNote tcBadShape) "id1",
          RequestMessage.tool (toolContent csNote tcUnknownName) "id2"]⟩, .ok ())
    ∧ toolContent csNote tcBadShape
        = Json.render (Json.objV [("Err", Json.strV "missing field note")]) := by
  have H := C2_amended_decode_failure_is_value csNote ⟨[]⟩ c2choice []
    [tcBadShape, tcUnknownName] rfl (by
      intro tc htc
      rcases List.mem_cons.mp htc with rfl | htc'
      · rfl
      · rcases List.mem_cons.mp htc' with rfl | htc''
        · rfl
        · simp at htc'')
  refine ⟨?_, ?_⟩
  · simpa [tcBadShape, tcUnknownName] using H.1
  · exact H.2 tcBadShape (List.mem_cons_self _ _) (Json.objV [])
      "missing field note" rfl rfl

/-- C4: for every prior Working Memory state and every response whose
first choice carries tool calls `[a, b]` with well-formed JSON argument
strings, one step leaves Working Memory equal to the prior messages,
then exactly one assistant message, then exactly two tool-result
messages whose ids are a's id then b's id, in that order. -/
theorem C4_two_tool_calls_history_shape (cs : Callables) (h : WorkingMemory)
    (choice : Choice) (rest : List Choice) (a b : ToolCall) (va vb : Json)
    (htc : choice.message.tool_calls = Option.some [a, b])
    (ha : a.arguments = Option.some va) (hb : b.arguments = Option.some vb) :
    bot_next cs ⟨choice :: rest⟩ h
      = (⟨h.fresh ++ [RequestMessage.assistant (to_request_message choice.message),
          RequestMessage.tool (Json.render (cs.call a.functionName va)) a.id,
          RequestMessage.tool (Json.render (cs.call b.functionName vb)) b.id]⟩,
         .ok ()) := by
  have hd := dispatchCalls_ok_of_parse cs [a, b] (by
    intro tc htc'
    rcases List.mem_cons.mp htc' with rfl | htc''
    · simp [ha]
    · rcases List.mem_cons.mp htc'' with rfl | htc'''
      · simp [hb]
      · simp at htc''')
  simp [bot_next, htc, hd, toolContent, ha, hb, WorkingMemory.add_messages]

/-- Witness for C4: a concrete two-call response appends the assistant
message and two tool messages with ids "a" then "b". -/
theorem C4_witness :
    bot_next csNote ⟨[c4choice]⟩ ⟨[]⟩
      = (⟨[RequestMessage.assistant (to_request_message c4choice.message),
          RequestMessage.tool (Json.render (csNote.call "x" Json.null)) "a",
          RequestMessage.tool (Json.render (csNote.call "y" Json.null)) "b"]⟩,
         .ok ()) := by
  have H := C4_two_tool_calls_history_shape csNote ⟨[]⟩ c4choice []
    ⟨"a", "x", Option.some Json.null⟩ ⟨"b", "y", Option.some Json.null⟩
    Json.null Json.null rfl rfl rfl
  simpa using H

/-- C5: every step either commits the entire pending batch (the
assistant message plus one tool-result message per tool call, in order)
to Working Memory, or — when the step aborts with an error — leaves
Working Memory exactly as it was; no batch is partially committed. -/
theorem C5_commit_atomicity (cs : Callables) (response : Response)
    (h : WorkingMemory) :
    (∀ e, (bot_next cs response h).2 = .error e → (bot_next cs response h).1 = h)
    ∧ ((bot_next cs response h).2 = .ok () →
        ∃ (choice : Choice) (rest : List Choice) (tcs : List ToolCall),
          response.choices = choice :: rest
          ∧ choice.message.tool_calls = Option.some tcs
          ∧ (bot_next cs response h).1
              = ⟨h.fresh ++ (RequestMessage.assistant (to_request_message choice.message)
                  :: tcs.map (fun tc =>
                      RequestMessage.tool (toolContent cs tc) tc.id))⟩) := by
  cases hc : response.choices with
  | nil =>
      constructor
      · intro e _
        simp [bot_next, hc]
      · intro hok
        simp [bot_next, hc] at hok
  | cons choice rest =>
      cases htc : choice.message.tool_calls with
      | none =>
          constructor
          · intro e _
            simp [bot_next, hc, htc]
          · intro hok
            simp [bot_next, hc, htc] at hok
      | some tcs =>
          cases hd : dispatchCalls cs tcs with
          | error e' =>
              constructor
              · intro e _
                simp [bot_next, hc, htc, hd]
              · intro hok
                simp [bot_next, hc, htc, hd] at hok
          | ok l =>
              constructor
              · intro e he
                simp [bot_next, hc, htc, hd] at he
              · intro _
                refine ⟨choice, rest, tcs, rfl, htc, ?_⟩
                simp [bot_next, hc, htc, hd, WorkingMemory.add_messages,
                  dispatchCalls_ok_shape cs tcs l hd]

/-- Witness for C5: a response with no choices aborts the step and
leaves the prior Working Memory untouched. -/
theorem C5_witness :
    (bot_next csNote ⟨[]⟩ ⟨[RequestMessage.user "q"]⟩).1
      = ⟨[RequestMessage.user "q"]⟩ := by
  exact (C5_commit_atomicity csNote ⟨[]⟩ ⟨[RequestMessage.user "q"]⟩).1
    "No choices in response" rfl

/-- C6: an empty choices list fails the step; with more than one choice
the step proceeds exactly as with the first alone; a response message
with no tool-calls field fails the step; a present-but-empty tool-call
list succeeds and appends only the assistant message, producing no
tool-result messages. -/
theorem C6_protocol_error_handling (cs : Callables) (response : Response)
    (h : WorkingMemory) :
    (response.choices = [] →
      bot_next cs response h = (h, .error "No choices in response"))
    ∧ (∀ choice rest, response.choices = choice :: rest →
        bot_next cs response h = bot_next cs ⟨[choice]⟩ h)
    ∧ (∀ choice rest, response.choices = choice :: rest →
        choice.message.tool_calls = Option.none →
        bot_next cs response h = (h, .error "No tool calls in response"))
    ∧ (∀ choice rest, response.choices = choice :: rest →
        choice.message.tool_calls = Option.some [] →
        bot_next cs response h
          = (⟨h.fresh ++ [RequestMessage.assistant (to_request_message choice.message)]⟩,
             .ok ())) := by
  refine ⟨?_, ?_, ?_, ?_⟩
  · intro hc
    simp [bot_next, hc]
  · intro choice rest hc
    simp [bot_next, hc]
  · intro choice rest hc htc
    simp [bot_next, hc, htc]
  · intro choice rest hc htc
    simp [bot_next, hc, htc, dispatchCalls, WorkingMemory.add_messages]

/-- Witness for C6: concrete instances of the empty-choices failure, the
multiple-choices first-wins behavior, the missing tool-calls failure,
and the empty tool-call-list success. -/
theorem C6_witness :
    bot_next csNote ⟨[]⟩ ⟨[]⟩ = (⟨[]⟩, .error "No choices in response")
    ∧ bot_next csNote ⟨[noCallsChoice, emptyCallsChoice]⟩ ⟨[]⟩
        = bot_next csNote ⟨[noCallsChoice]⟩ ⟨[]⟩
    ∧ bot_next csNote ⟨[noCallsChoice]⟩ ⟨[]⟩
        = (⟨[]⟩, .error "No tool calls in response")
    ∧ bot_next csNote ⟨[emptyCallsChoice]⟩ ⟨[]⟩
        = (⟨[RequestMessage.assistant (to_request_message emptyCallsChoice.message)]⟩,
           .ok ()) := by
  refine ⟨?_, ?_, ?_, ?_⟩
  · exact (C6_protocol_error_handling csNote ⟨[]⟩ ⟨[]⟩).1 rfl
  · exact (C6_protocol_error_handling csNote ⟨[noCallsChoice, emptyCallsChoice]⟩
      ⟨[]⟩).2.1 noCallsChoice [emptyCallsChoice] rfl
  · exact (C6_protocol_error_handling csNote ⟨[noCallsChoice]⟩ ⟨[]⟩).2.2.1
      noCallsChoice [] rfl rfl
  · have := (C6_protocol_error_handling csNote ⟨[emptyCallsChoice]⟩ ⟨[]⟩).2.2.2
      emptyCallsChoice [] rfl rfl
    simpa using this

/-- Counterexample to C8 as stated: registering a second capability
under the already-present name "dup" is not rejected — the registry's
stored entry for "dup" changes to the second registration's derived
entry. -/
theorem C8_counterexample :
    (lookupAssoc ((Callables.empty.add dupCallableA).add dupCallableB).callables
        "dup").map (fun w => w.description)
      = Option.some (mkDescription dupCallableB)
    ∧ mkDescription dupCallableB ≠ mkDescription dupCallableA := by
  constructor
  · rfl
  · decide

/-- C8 (amended): registering a capability whose name is already present
silently overwrites the existing entry — the registry afterwards maps
the name to the new registration's handler, sanitized input schema and
description — and the key list is unchanged, so capability names remain
unique in the registry. -/
theorem C8_amended_overwrite {I O I' O' : Type} (cs : Callables)
    (c : Callable I O) (c' : Callable I' O') (hname : c'.name = c.name) :
    (∃ w, lookupAssoc ((cs.add c).add c').callables c.name = Option.some w
      ∧ w.description = mkDescription c'
      ∧ w.input_schema = schema_for c'.rawInputSchema
      ∧ ∀ v, w.call v = rpcCall c' v)
    ∧ ((cs.add c).add c').callables.map Prod.fst
        = (cs.add c).callables.map Prod.fst := by
  constructor
  · refine ⟨⟨fun input => rpcCall c' input, schema_for c'.rawInputSchema,
      mkDescription c'⟩, ?_, rfl, rfl, fun v => rfl⟩
    show lookupAssoc (insertAssoc c'.name _ (cs.add c).callables) c.name
      = Option.some _
    rw [hname]
    exact lookupAssoc_insertAssoc_self _ _ _
  · show (insertAssoc c'.name _ (cs.add c).callables).map Prod.fst
      = (cs.add c).callables.map Prod.fst
    apply map_fst_insertAssoc_of_mem
    rw [hname]
    exact mem_map_fst_insertAssoc _ _ _

/-- Witness for C8 (amended): after registering "dup" twice, the registry
maps "dup" to the second registration's entry. -/
theorem C8_witness :
    ∃ w, lookupAssoc ((Callables.empty.add dupCallableA).add dupCallableB).callables
        "dup" = Option.some w
      ∧ w.description = mkDescription dupCallableB := by
  have H := C8_amended_overwrite Callables.empty dupCallableA dupCallableB rfl
  obtain ⟨⟨w, hw, hd, _, _⟩, _⟩ := H
  exact ⟨w, hw, hd⟩

end Bot
